import Mathlib

/-!
ManagersLoader (axion-1/loaders/ManagersLoader.js)

A shallow embedding of the dependency-injection bootstrapper `ManagersLoader`.

* JavaScript values are `Val`; objects live on a `Heap` and are referred to by address, so
  that aliasing (the bag's `managers` entry and the loader's `managers` field denote the same
  object) is represented faithfully.
* The collaborators required by the module (the three sub-loaders, the eight manager classes,
  `utils`, the static architecture descriptor and the two schema modules) are not part of the
  file; they are parameters, collected in `Env`.  A collaborator may return or throw, and what
  it does may depend on its argument and on everything reachable from it (the heap).
  Collaborators are observers: they do not write to the loader's objects.
* `new C(arg)` yields a freshly allocated object, as `new` does for a class constructor.
* Every collaborator invocation is recorded in a trace (the test double of the specification:
  it captures the call, its argument, the heap at that moment and the outcome).
* Exceptions keep the side effects made before the throw: a computation maps a `World` to an
  outcome *and* the world reached.
-/

namespace Axion

/-- JavaScript values.  `handle` is an object owned by the outside world (configuration,
event bus, cache, stores, whatever a sub-loader returns); `ref a` is the object at address
`a` of the modelled heap (addresses are natural numbers); `error msg` is an `Error` object
carrying `msg`; `strArr` is an array literal of string literals. -/
inductive Val where
  | undefined
  | null
  | bool (b : Bool)
  | num (n : Int)
  | str (s : String)
  | strArr (xs : List String)
  | error (message : String)
  | handle (id : Nat)
  | ref (a : Nat)
  deriving DecidableEq

/-- JavaScript truthiness (`!v` is `!(v.truthy)`). -/
def Val.truthy : Val → Bool
  | .undefined => false
  | .null => false
  | .bool b => b
  | .num n => n != 0
  | .str s => s != ""
  | _ => true

/-- An object: its own enumerable properties, in insertion order. -/
abbrev Obj := List (String × Val)

/-- The keys of an object. -/
def Obj.keys (o : Obj) : List String := o.map Prod.fst

/-- Whether the object has own property `k` (`k in o`). -/
def Obj.has : Obj → String → Bool
  | [], _ => false
  | (k', _) :: rest, k => if k' = k then true else Obj.has rest k

/-- Property read `o[k]`; `undefined` when the property is missing. -/
def Obj.get : Obj → String → Val
  | [], _ => .undefined
  | (k', v') :: rest, k => if k' = k then v' else Obj.get rest k

/-- Property write `o[k] = v`: overwrite in place, or append a new property. -/
def Obj.set : Obj → String → Val → Obj
  | [], k, v => [(k, v)]
  | (k', v') :: rest, k, v => if k' = k then (k, v) :: rest else (k', v') :: Obj.set rest k v

/-- Spread `{ ...tgt, ...src }` onto an object under construction: every property of `src`
is written onto `tgt`, in order, so `src` wins on a common key. -/
def Obj.spread (tgt src : Obj) : Obj := src.foldl (fun acc p => acc.set p.1 p.2) tgt

/-- The heap: the object at address `a` is the `a`-th element. -/
abbrev Heap := List Obj

/-- The object stored at an address (empty for an address that is not allocated). -/
def Heap.read (h : Heap) (a : Nat) : Obj := h.getD a []

/-- Replace the object stored at an address. -/
def Heap.write (h : Heap) (a : Nat) (o : Obj) : Heap := h.set a o

/-- Either a returned value or a thrown one. -/
inductive Outcome (α : Type) where
  | ok (value : α)
  | thrown (err : Val)
  deriving DecidableEq

/-- The collaborators required by the module. -/
inductive Collab where
  | ValidatorsLoader
  | ResourceMeshLoader
  | MiddlewaresLoader
  | ResponseDispatcher
  | LiveDB
  | SharkFin
  | TimeMachine
  | TokenManager
  | VirtualStack
  | ApiHandler
  | UserServer
  deriving DecidableEq

/-- The two ways a collaborator is invoked: `new C(arg)` and `instance.load()`. -/
inductive Call where
  | construct (c : Collab)
  | load (c : Collab)
  deriving DecidableEq

/-- One collaborator invocation as captured by a test double: the call, its argument (the
receiver for `load`), the heap at the moment of the call, and how the call ended. -/
structure Event where
  call : Call
  arg : Val
  heap : Heap
  result : Outcome Val
  deriving DecidableEq

/-- Everything the loader can change: the heap, the trace of collaborator invocations and
the diagnostic output written with `console.error`. -/
structure World where
  heap : Heap
  trace : List Event
  console : List (String × Val)
  deriving DecidableEq

/-- The modules required by `ManagersLoader.js`, none of which is part of the file.
`construct c arg h` is the body of `new c(arg)` run on heap `h`: it throws, or returns the
properties it gave the new instance.  `invoke c recv h` is `recv.load()`. -/
structure Env where
  utils : Val
  systemArch : Obj
  schemaModels : Val
  schemaValidators : Val
  construct : Collab → Val → Heap → Outcome Obj
  invoke : Collab → Val → Heap → Outcome Val

/-- Computations of the loader: from a world to an outcome and the world reached (side
effects made before a throw are kept). -/
def M (α : Type) : Type := World → Outcome α × World

/-- Return a value without touching the world. -/
def M.pure {α : Type} (a : α) : M α := fun w => (.ok a, w)

/-- Sequencing: a throw in the first computation skips the rest. -/
def M.bind {α β : Type} (m : M α) (f : α → M β) : M β := fun w =>
  match m w with
  | (.ok a, w1) => f a w1
  | (.thrown e, w1) => (.thrown e, w1)

instance : Monad M where
  pure := M.pure
  bind := M.bind

/-- The statement `throw e`. -/
def raise {α : Type} (e : Val) : M α := fun w => (.thrown e, w)

/-- The statement `try { body } catch (error) { handler }`. -/
def tryCatch {α : Type} (body : M α) (handler : Val → M α) : M α := fun w =>
  match body w with
  | (.ok a, w1) => (.ok a, w1)
  | (.thrown e, w1) => handler e w1

/-- Run `m`, continue with `k` on a returned value and with `h` on a thrown one.  Both
sequencing and `try`/`catch` are instances of it. -/
def bindCatch {α β : Type} (m : M α) (k : α → M β) (h : Val → M β) : M β := fun w =>
  match m w with
  | (.ok a, w1) => k a w1
  | (.thrown e, w1) => h e w1

/-- The call `console.error(msg, e)`. -/
def consoleError (msg : String) (e : Val) : M Unit := fun w =>
  (.ok (), { w with console := w.console ++ [(msg, e)] })

/-- Allocate an object (an object literal or `{}`), giving its address. -/
def alloc (o : Obj) : M Nat := fun w =>
  (.ok w.heap.length, { w with heap := w.heap ++ [o] })

/-- Read the properties of the object at an address. -/
def readObj (a : Nat) : M Obj := fun w => (.ok (w.heap.read a), w)

/-- The assignment `obj.k = v` on the object at address `a`. -/
def setProp (a : Nat) (k : String) (v : Val) : M Unit := fun w =>
  (.ok (), { w with heap := w.heap.write a ((w.heap.read a).set k v) })

/-- The expression `new c(arg)`: the call is recorded; if the constructor body throws, the
error propagates, otherwise the new instance is allocated and its reference returned. -/
def construct (env : Env) (c : Collab) (arg : Val) : M Val := fun w =>
  match env.construct c arg w.heap with
  | .thrown e =>
    (.thrown e, { w with trace := w.trace ++ [⟨.construct c, arg, w.heap, .thrown e⟩] })
  | .ok fields =>
    (.ok (.ref w.heap.length),
      { w with heap := w.heap ++ [fields],
               trace := w.trace ++ [⟨.construct c, arg, w.heap, .ok (.ref w.heap.length)⟩] })

/-- The expression `recv.load()` for a sub-loader instance `recv` of class `c`. -/
def callLoad (env : Env) (c : Collab) (recv : Val) : M Val := fun w =>
  match env.invoke c recv w.heap with
  | .thrown e =>
    (.thrown e, { w with trace := w.trace ++ [⟨.load c, recv, w.heap, .thrown e⟩] })
  | .ok v =>
    (.ok v, { w with trace := w.trace ++ [⟨.load c, recv, w.heap, .ok v⟩] })

/-- The fields of a constructed `ManagersLoader` (`this`). -/
structure ManagersLoader where
  managers : Nat
  config : Val
  cache : Val
  cortex : Val
  validators : Val
  resourceNodes : Val
  injectable : Nat
  deriving DecidableEq

/-- The error thrown by the guard of the constructor. -/
def missingDependency : Val :=
  .error "Required dependencies missing in ManagersLoader constructor"

/-- `ManagersLoader._preload()`: returns what it assigns to `this.validators` and
`this.resourceNodes`. -/
def ManagersLoader._preload (env : Env) : M (Val × Val) :=
  tryCatch
    (do
      let validatorsArg ← alloc
        [("models", env.schemaModels), ("customValidators", env.schemaValidators)]
      let validatorsLoader ← construct env .ValidatorsLoader (.ref validatorsArg)
      let resourceMeshArg ← alloc []
      let resourceMeshLoader ← construct env .ResourceMeshLoader (.ref resourceMeshArg)
      let validators ← callLoad env .ValidatorsLoader validatorsLoader
      let resourceNodes ← callLoad env .ResourceMeshLoader resourceMeshLoader
      pure (validators, resourceNodes))
    (fun error => do
      consoleError "Error in _preload:" error
      raise error)

/-- `new ManagersLoader(input)`, for an input object `input`, which is destructured into
`config`, `cortex`, `cache`, `oyster` and `aeon`. -/
def ManagersLoader.constructor (env : Env) (input : Obj) : M ManagersLoader :=
  let config := input.get "config"
  let cortex := input.get "cortex"
  let cache := input.get "cache"
  let oyster := input.get "oyster"
  let aeon := input.get "aeon"
  if !config.truthy || !cortex.truthy || !cache.truthy then
    raise missingDependency
  else do
    let managers ← alloc []
    tryCatch
      (do
        let (validators, resourceNodes) ← ManagersLoader._preload env
        let injectable ← alloc
          [("utils", env.utils),
           ("cache", cache),
           ("config", config),
           ("cortex", cortex),
           ("oyster", oyster),
           ("aeon", aeon),
           ("managers", .ref managers),
           ("validators", validators),
           ("resourceNodes", resourceNodes)]
        pure
          { managers := managers, config := config, cache := cache, cortex := cortex,
            validators := validators, resourceNodes := resourceNodes,
            injectable := injectable })
      (fun error => do
        consoleError "Error in ManagersLoader initialization:" error
        raise error)

/-- `ManagersLoader.load()` on the loader `self`; returns `this.managers`. -/
def ManagersLoader.load (env : Env) (self : ManagersLoader) : M Val :=
  tryCatch
    (do
      let responseDispatcher ← construct env .ResponseDispatcher .undefined
      setProp self.managers "responseDispatcher" responseDispatcher
      let liveDb ← construct env .LiveDB (.ref self.injectable)
      setProp self.managers "liveDb" liveDb
      let middlewaresLoader ← construct env .MiddlewaresLoader (.ref self.injectable)
      let mwsRepo ← callLoad env .MiddlewaresLoader middlewaresLoader
      let layers := env.systemArch.get "layers"
      let actions := env.systemArch.get "actions"
      setProp self.injectable "mwsRepo" mwsRepo
      let bag ← readObj self.injectable
      let sharkArg ← alloc (((Obj.spread [] bag).set "layers" layers).set "actions" actions)
      let shark ← construct env .SharkFin (.ref sharkArg)
      setProp self.managers "shark" shark
      let timeMachine ← construct env .TimeMachine (.ref self.injectable)
      setProp self.managers "timeMachine" timeMachine
      let token ← construct env .TokenManager (.ref self.injectable)
      setProp self.managers "token" token
      let bag ← readObj self.injectable
      let stackArg ← alloc
        (Obj.spread (Obj.spread [] [("preStack", .strArr ["__device"])]) bag)
      let mwsExec ← construct env .VirtualStack (.ref stackArg)
      setProp self.managers "mwsExec" mwsExec
      let bag ← readObj self.injectable
      let apiArg ← alloc (Obj.spread (Obj.spread [] bag) [("prop", .str "httpExposed")])
      let userApi ← construct env .ApiHandler (.ref apiArg)
      setProp self.managers "userApi" userApi
      let serverArg ← alloc [("config", self.config), ("managers", .ref self.managers)]
      let userServer ← construct env .UserServer (.ref serverArg)
      setProp self.managers "userServer" userServer
      pure (.ref self.managers))
    (fun error => do
      consoleError "Error in load:" error
      raise error)

/-! ## Vocabulary of the specification -/

/-- A dependency is absent when it was omitted (`undefined`) or is `null`. -/
def Val.absent : Val → Bool
  | .undefined => true
  | .null => true
  | _ => false

/-- The loader's two objects are allocated, distinct, and the bag is a proper object (no key
occurs twice). -/
def WF (self : ManagersLoader) (h : Heap) : Prop :=
  self.managers < h.length ∧ self.injectable < h.length ∧
    self.managers ≠ self.injectable ∧ (h.read self.injectable).keys.Nodup

/-- The collaborator invocations made between world `w` and a later world `w1`. -/
def eventsSince (w w1 : World) : List Event := w1.trace.drop w.trace.length

/-- The properties of the argument object a collaborator was called with, as they were at
the moment of the call. -/
def Event.argObj (ev : Event) : Obj :=
  match ev.arg with
  | .ref a => ev.heap.read a
  | _ => []

/-- The collaborator invocations of the constructor (through `_preload`), in source order. -/
def constructorCalls : List Call :=
  [.construct .ValidatorsLoader, .construct .ResourceMeshLoader,
   .load .ValidatorsLoader, .load .ResourceMeshLoader]

/-- The collaborator invocations of `load()`, in source order. -/
def loadCalls : List Call :=
  [.construct .ResponseDispatcher, .construct .LiveDB, .construct .MiddlewaresLoader,
   .load .MiddlewaresLoader, .construct .SharkFin, .construct .TimeMachine,
   .construct .TokenManager, .construct .VirtualStack, .construct .ApiHandler,
   .construct .UserServer]

/-- The key of the managers mapping under which `load()` stores an instance of a class. -/
def managerKey : Collab → Option String
  | .ResponseDispatcher => some "responseDispatcher"
  | .LiveDB => some "liveDb"
  | .SharkFin => some "shark"
  | .TimeMachine => some "timeMachine"
  | .TokenManager => some "token"
  | .VirtualStack => some "mwsExec"
  | .ApiHandler => some "userApi"
  | .UserServer => some "userServer"
  | _ => none

/-- The eight documented keys of the managers mapping, in the order `load()` assigns them. -/
def managerKeys : List String :=
  ["responseDispatcher", "liveDb", "shark", "timeMachine", "token", "mwsExec", "userApi",
   "userServer"]

/-- The assignment a completed step makes to the managers mapping: a manager constructor
that returned binds its key to the new instance; a step that threw, and the middleware
loader, assign nothing. -/
def assignStep (m : Obj) (ev : Event) : Obj :=
  match ev.call, ev.result with
  | .construct c, .ok v =>
    match managerKey c with
    | some k => m.set k v
    | none => m
  | _, _ => m

/-- The managers mapping `m` after the assignments of the steps `evs`. -/
def assigned (m : Obj) (evs : List Event) : Obj := evs.foldl assignStep m

/-- Whether the invocation returned, that is, did not throw. -/
def Event.returned (ev : Event) : Bool :=
  match ev.result with
  | .ok _ => true
  | .thrown _ => false

/-! ## Concrete collaborators and inputs -/

/-- The world before anything is allocated. -/
def emptyWorld : World := ⟨[], [], []⟩

/-- Collaborators that always succeed: constructors leave their instance without own
properties; the sub-loaders return outside objects. -/
def quietEnv : Env where
  utils := .handle 0
  systemArch := [("layers", .handle 1), ("actions", .handle 2)]
  schemaModels := .handle 3
  schemaValidators := .handle 4
  construct := fun _ _ _ => .ok []
  invoke := fun c _ _ =>
    match c with
    | .ValidatorsLoader => .ok (.handle 10)
    | .ResourceMeshLoader => .ok (.handle 11)
    | _ => .ok (.handle 12)

/-- An input with the three required handles and both optional stores omitted. -/
def plainInput : Obj :=
  [("config", .handle 20), ("cortex", .handle 21), ("cache", .handle 22)]

/-- An input whose config is present but is the number `0`. -/
def zeroConfigInput : Obj :=
  [("config", .num 0), ("cortex", .handle 21), ("cache", .handle 22)]

/-- Collaborators as in `quietEnv`, except that the validators loader's `load()` throws. -/
def failingValidatorsEnv : Env :=
  { quietEnv with
    invoke := fun c recv h =>
      match c with
      | .ValidatorsLoader => .thrown (.error "invalid schema")
      | _ => quietEnv.invoke c recv h }

/-- Collaborators as in `quietEnv`, except that the validators loader refuses to be
constructed unless it is given the schema models of this module. -/
def strictValidatorsEnv : Env :=
  { quietEnv with
    construct := fun c arg h =>
      match c, arg with
      | .ValidatorsLoader, .ref a =>
        if (h.read a).get "models" = .handle 3 then .ok []
        else .thrown (.error "unknown schema models")
      | .ValidatorsLoader, _ => .thrown (.error "unknown schema models")
      | _, _ => .ok [] }

/-- An input in which config is omitted. -/
def configlessInput : Obj := [("cortex", .handle 21), ("cache", .handle 22)]

/-- Collaborators as in `quietEnv`, except that the middleware loader's `load()` throws. -/
def failingMiddlewaresEnv : Env :=
  { quietEnv with
    invoke := fun c recv h =>
      match c with
      | .MiddlewaresLoader => .thrown (.error "middlewares unavailable")
      | _ => quietEnv.invoke c recv h }

/-- Collaborators as in `quietEnv`, except that the token manager refuses to be constructed
when the managers mapping it is given (through the bag) already holds a token manager. -/
def guardedTokenEnv : Env :=
  { quietEnv with
    construct := fun c arg h =>
      match c, arg with
      | .TokenManager, .ref bag =>
        match (h.read bag).get "managers" with
        | .ref managers =>
          if (h.read managers).has "token" then .thrown (.error "token manager already set")
          else .ok []
        | _ => .ok []
      | _, _ => .ok [] }

/-- The loader constructed from `plainInput` in the empty world. -/
def createdLoader : ManagersLoader :=
  { managers := 0, config := .handle 20, cache := .handle 22, cortex := .handle 21,
    validators := .handle 10, resourceNodes := .handle 11, injectable := 5 }

/-- The world left by that construction. -/
def createdWorld : World := (ManagersLoader.constructor quietEnv plainInput emptyWorld).2

/-- The world after a first `load()`. -/
def loadedWorld : World := (ManagersLoader.load quietEnv createdLoader createdWorld).2

/-- The world after a second `load()`. -/
def reloadedWorld : World := (ManagersLoader.load quietEnv createdLoader loadedWorld).2

/-- The world after construction, once the host has put a preStack and a prop entry of its
own into the loader's bag. -/
def customisedWorld : World :=
  ((do
    setProp createdLoader.injectable "preStack" (.strArr ["__session"])
    setProp createdLoader.injectable "prop" (.str "cliExposed") : M Unit) createdWorld).2

/-- The `i`-th collaborator invocation made between two worlds. -/
def eventAt (w w1 : World) (i : Nat) : Event :=
  (eventsSince w w1).getD i ⟨.construct .ResponseDispatcher, .undefined, [], .thrown .undefined⟩

/-- The world after a `load()` in which the middleware loader's `load()` threw. -/
def failedWorld : World :=
  (ManagersLoader.load failingMiddlewaresEnv createdLoader createdWorld).2

/-- The world after a `load()` on the customised bag. -/
def customLoadedWorld : World :=
  (ManagersLoader.load quietEnv createdLoader customisedWorld).2

/-- The world after a first `load()` that returned followed by a second one in which the
guarded token manager threw. -/
def refusedWorld : World :=
  (ManagersLoader.load guardedTokenEnv createdLoader loadedWorld).2

/-! ## Objects -/

theorem Obj.get_set_same (o : Obj) (k : String) (v : Val) : (Obj.set o k v).get k = v := by
  induction o with
  | nil => simp [Obj.set, Obj.get]
  | cons p rest ih =>
    obtain ⟨k', v'⟩ := p
    by_cases h : k' = k <;> simp [Obj.set, Obj.get, h, ih]

theorem Obj.get_set_ne (o : Obj) (k k' : String) (v : Val) (h : k' ≠ k) :
    (Obj.set o k v).get k' = o.get k' := by
  induction o with
  | nil => simp [Obj.set, Obj.get, Ne.symm h]
  | cons p rest ih =>
    obtain ⟨k₁, v₁⟩ := p
    by_cases h₁ : k₁ = k
    · subst h₁
      simp [Obj.set, Obj.get, Ne.symm h]
    · by_cases h₂ : k₁ = k'
      · subst h₂
        simp [Obj.set, Obj.get, h₁]
      · simp [Obj.set, Obj.get, h₁, h₂, ih]

theorem Obj.has_set_same (o : Obj) (k : String) (v : Val) : (Obj.set o k v).has k = true := by
  induction o with
  | nil => simp [Obj.set, Obj.has]
  | cons p rest ih =>
    obtain ⟨k', v'⟩ := p
    by_cases h : k' = k <;> simp [Obj.set, Obj.has, h, ih]

theorem Obj.has_set_ne (o : Obj) (k k' : String) (v : Val) (h : k' ≠ k) :
    (Obj.set o k v).has k' = o.has k' := by
  induction o with
  | nil => simp [Obj.set, Obj.has, Ne.symm h]
  | cons p rest ih =>
    obtain ⟨k₁, v₁⟩ := p
    by_cases h₁ : k₁ = k
    · subst h₁
      simp [Obj.set, Obj.has, Ne.symm h]
    · by_cases h₂ : k₁ = k'
      · subst h₂
        simp [Obj.set, Obj.has, h₁]
      · simp [Obj.set, Obj.has, h₁, h₂, ih]

theorem Obj.has_iff_mem_keys (o : Obj) (k : String) : o.has k = true ↔ k ∈ o.keys := by
  induction o with
  | nil => simp [Obj.has, Obj.keys]
  | cons p rest ih =>
    obtain ⟨k₁, v₁⟩ := p
    have ih' : Obj.has rest k = true ↔ k ∈ List.map Prod.fst rest := ih
    by_cases h₁ : k₁ = k
    · subst h₁
      simp [Obj.has, Obj.keys]
    · have h₂ : ¬ k = k₁ := fun h => h₁ h.symm
      simp [Obj.has, Obj.keys, h₁, h₂, ih']

theorem Obj.get_of_not_has (o : Obj) (k : String) (h : o.has k = false) :
    o.get k = .undefined := by
  induction o with
  | nil => rfl
  | cons p rest ih =>
    obtain ⟨k₁, v₁⟩ := p
    by_cases h₁ : k₁ = k
    · subst h₁
      simp [Obj.has] at h
    · simp only [Obj.has, h₁, if_false] at h
      simp [Obj.get, h₁, ih h]

theorem Obj.keys_set_of_has (o : Obj) (k : String) (v : Val) (h : o.has k = true) :
    (Obj.set o k v).keys = o.keys := by
  induction o with
  | nil => simp [Obj.has] at h
  | cons p rest ih =>
    obtain ⟨k₁, v₁⟩ := p
    by_cases h₁ : k₁ = k
    · subst h₁
      simp [Obj.set, Obj.keys]
    · simp only [Obj.has, h₁, if_false] at h
      have := ih h
      simp only [Obj.keys] at this
      simp [Obj.set, Obj.keys, h₁, this]

theorem Obj.keys_set_of_not_has (o : Obj) (k : String) (v : Val) (h : o.has k = false) :
    (Obj.set o k v).keys = o.keys ++ [k] := by
  induction o with
  | nil => simp [Obj.set, Obj.keys]
  | cons p rest ih =>
    obtain ⟨k₁, v₁⟩ := p
    by_cases h₁ : k₁ = k
    · subst h₁
      simp [Obj.has] at h
    · simp only [Obj.has, h₁, if_false] at h
      have := ih h
      simp only [Obj.keys] at this
      simp [Obj.set, Obj.keys, h₁, this]

theorem Obj.nodup_set (o : Obj) (k : String) (v : Val) (h : o.keys.Nodup) :
    (Obj.set o k v).keys.Nodup := by
  cases hk : o.has k with
  | true => rw [Obj.keys_set_of_has o k v hk]; exact h
  | false =>
    rw [Obj.keys_set_of_not_has o k v hk]
    have hnot : k ∉ o.keys := by
      intro hmem
      rw [(Obj.has_iff_mem_keys o k).2 hmem] at hk
      cases hk
    exact List.Nodup.append h (List.nodup_singleton k) (by simpa using hnot)

theorem Obj.has_spread (tgt src : Obj) (k : String) :
    (Obj.spread tgt src).has k = (src.has k || tgt.has k) := by
  induction src generalizing tgt with
  | nil => simp [Obj.spread, Obj.has]
  | cons p rest ih =>
    obtain ⟨k₁, v₁⟩ := p
    have := ih (Obj.set tgt k₁ v₁)
    simp only [Obj.spread, List.foldl_cons] at this ⊢
    rw [this]
    by_cases h : k₁ = k
    · subst h
      simp [Obj.has, Obj.has_set_same]
    · have hk : k ≠ k₁ := fun h' => h h'.symm
      simp [Obj.has, h, Obj.has_set_ne _ _ _ _ hk]

theorem Obj.get_spread (tgt src : Obj) (k : String) (hs : src.keys.Nodup) :
    (Obj.spread tgt src).get k = if src.has k then src.get k else tgt.get k := by
  induction src generalizing tgt with
  | nil => simp [Obj.spread, Obj.has]
  | cons p rest ih =>
    obtain ⟨k₁, v₁⟩ := p
    simp only [Obj.keys, List.map_cons, List.nodup_cons] at hs
    have := ih (Obj.set tgt k₁ v₁) hs.2
    simp only [Obj.spread, List.foldl_cons] at this ⊢
    rw [this]
    by_cases h : k₁ = k
    · subst h
      have hno : Obj.has rest k₁ = false := by
        cases hh : Obj.has rest k₁ with
        | false => rfl
        | true => exact absurd ((Obj.has_iff_mem_keys rest k₁).1 hh) hs.1
      simp [hno, Obj.has, Obj.get, Obj.get_set_same]
    · have hk : k ≠ k₁ := fun h' => h h'.symm
      simp [Obj.has, Obj.get, h, Obj.get_set_ne _ _ _ _ hk]

/-! ## Heap -/

theorem Heap.length_write (h : Heap) (a : Nat) (o : Obj) :
    (Heap.write h a o).length = h.length := by
  simp [Heap.write]

theorem Heap.read_write_same (h : Heap) (a : Nat) (o : Obj) (ha : a < h.length) :
    (Heap.write h a o).read a = o := by
  simp [Heap.write, Heap.read, List.getD, ha]

theorem Heap.read_write_ne (h : Heap) (a b : Nat) (o : Obj) (hab : a ≠ b) :
    (Heap.write h a o).read b = h.read b := by
  simp [Heap.write, Heap.read, List.getD, List.getElem?_set_ne hab]

theorem Heap.read_append_lt (h xs : Heap) (a : Nat) (ha : a < h.length) :
    Heap.read (h ++ xs) a = h.read a := by
  simp [Heap.read, List.getD, List.getElem?_append_left ha]

theorem Heap.read_append_right (h xs : Heap) (i : Nat) :
    Heap.read (h ++ xs) (h.length + i) = Heap.read xs i := by
  simp [Heap.read, List.getD, List.getElem?_append_right]

theorem Heap.read_append_self (h : Heap) (o : Obj) (rest : Heap) :
    Heap.read (h ++ o :: rest) h.length = o := by
  have := Heap.read_append_right h (o :: rest) 0
  simpa [Heap.read, List.getD] using this

/-! ## Symbolic execution -/

section steps
variable {α β γ : Type}

theorem bind_eq_bindCatch (m : M α) (f : α → M β) : (m >>= f) = bindCatch m f raise := by
  funext w
  show M.bind m f w = bindCatch m f raise w
  unfold M.bind bindCatch raise
  rcases m w with ⟨_ | _, _⟩ <;> rfl

theorem tryCatch_eq_bindCatch (m : M α) (h : Val → M α) :
    tryCatch m h = bindCatch m pure h := by
  funext w
  unfold tryCatch bindCatch
  rcases m w with ⟨_ | _, _⟩ <;> rfl

theorem bindCatch_assoc (m : M α) (k₁ : α → M β) (h₁ : Val → M β) (k : β → M γ)
    (h : Val → M γ) :
    bindCatch (bindCatch m k₁ h₁) k h =
      bindCatch m (fun a => bindCatch (k₁ a) k h) (fun e => bindCatch (h₁ e) k h) := by
  funext w
  unfold bindCatch
  rcases m w with ⟨_ | _, _⟩ <;> rfl

theorem bindCatch_pure (a : α) (k : α → M β) (h : Val → M β) (w : World) :
    bindCatch (pure a) k h w = k a w := rfl

theorem bindCatch_raise (e : Val) (k : α → M β) (h : Val → M β) (w : World) :
    bindCatch (raise e) k h w = h e w := rfl

theorem pure_run (a : α) (w : World) : (pure a : M α) w = (.ok a, w) := rfl

theorem raise_run (e : Val) (w : World) : (raise e : M α) w = (.thrown e, w) := rfl

theorem bindCatch_consoleError (msg : String) (e : Val) (k : Unit → M β) (h : Val → M β)
    (w : World) :
    bindCatch (consoleError msg e) k h w =
      k () { w with console := w.console ++ [(msg, e)] } := rfl

theorem bindCatch_alloc (o : Obj) (k : Nat → M β) (h : Val → M β) (w : World) :
    bindCatch (alloc o) k h w = k w.heap.length { w with heap := w.heap ++ [o] } := rfl

theorem bindCatch_readObj (a : Nat) (k : Obj → M β) (h : Val → M β) (w : World) :
    bindCatch (readObj a) k h w = k (w.heap.read a) w := rfl

theorem bindCatch_setProp (a : Nat) (key : String) (v : Val) (k : Unit → M β)
    (h : Val → M β) (w : World) :
    bindCatch (setProp a key v) k h w =
      k () { w with heap := Heap.write w.heap a (Obj.set (w.heap.read a) key v) } := rfl

theorem bindCatch_construct (env : Env) (c : Collab) (arg : Val) (k : Val → M β)
    (h : Val → M β) (w : World) :
    bindCatch (construct env c arg) k h w =
      match env.construct c arg w.heap with
      | .thrown e =>
        h e { w with trace := w.trace ++ [⟨.construct c, arg, w.heap, .thrown e⟩] }
      | .ok fields =>
        k (.ref w.heap.length)
          { w with heap := w.heap ++ [fields],
                   trace := w.trace ++
                     [⟨.construct c, arg, w.heap, .ok (.ref w.heap.length)⟩] } := by
  simp only [bindCatch, construct]
  cases env.construct c arg w.heap <;> rfl

theorem bindCatch_callLoad (env : Env) (c : Collab) (recv : Val) (k : Val → M β)
    (h : Val → M β) (w : World) :
    bindCatch (callLoad env c recv) k h w =
      match env.invoke c recv w.heap with
      | .thrown e =>
        h e { w with trace := w.trace ++ [⟨.load c, recv, w.heap, .thrown e⟩] }
      | .ok v =>
        k v { w with trace := w.trace ++ [⟨.load c, recv, w.heap, .ok v⟩] } := by
  simp only [bindCatch, callLoad]
  cases env.invoke c recv w.heap <;> rfl

end steps

/-! ## The constructor -/

theorem Val.truthy_of_absent (v : Val) (h : v.absent = true) : v.truthy = false := by
  cases v <;> simp_all [Val.absent, Val.truthy]

theorem eventsSince_append (w : World) (h : Heap) (evs : List Event)
    (c : List (String × Val)) : eventsSince w ⟨h, w.trace ++ evs, c⟩ = evs := by
  simp [eventsSince]

theorem eventsSince_self (w : World) : eventsSince w w = [] := by
  simp [eventsSince]

/-- C1: when config, cortex or cache is absent, construction throws the missing-dependency
error at once: the world is left exactly as it was, so no sub-loader has been invoked and
nothing (in particular no injectable bag) has been allocated. -/
theorem constructor_missing_dependency (env : Env) (input : Obj) (w : World)
    (h : (input.get "config").absent = true ∨ (input.get "cortex").absent = true ∨
      (input.get "cache").absent = true) :
    ManagersLoader.constructor env input w = (.thrown missingDependency, w) := by
  unfold ManagersLoader.constructor
  have hguard : (!(input.get "config").truthy || !(input.get "cortex").truthy ||
      !(input.get "cache").truthy) = true := by
    rcases h with h | h | h <;> simp [Val.truthy_of_absent _ h]
  simp only [hguard, if_true]
  rfl

/-- C1 at a concrete input: config omitted, the two other handles supplied. -/
theorem constructor_missing_dependency_witness :
    (configlessInput.get "config").absent = true ∧
      ManagersLoader.constructor quietEnv configlessInput emptyWorld =
        (.thrown missingDependency, emptyWorld) :=
  ⟨by decide, constructor_missing_dependency quietEnv configlessInput emptyWorld
    (Or.inl (by decide))⟩

/-- C2 as stated fails: a config that is present but falsy (the number 0) is rejected by
the guard, and with all three handles present construction still fails when a sub-loader
throws. -/
theorem constructor_present_counterexample :
    ((zeroConfigInput.get "config").absent = false ∧
      (zeroConfigInput.get "cortex").absent = false ∧
      (zeroConfigInput.get "cache").absent = false ∧
      (ManagersLoader.constructor quietEnv zeroConfigInput emptyWorld).1 =
        .thrown missingDependency) ∧
    ((plainInput.get "config").absent = false ∧
      (plainInput.get "cortex").absent = false ∧
      (plainInput.get "cache").absent = false ∧
      (ManagersLoader.constructor failingValidatorsEnv plainInput emptyWorld).1 =
        .thrown (.error "invalid schema")) := by
  decide


/-- Every successful construction, described in full: the addresses of the two objects it
allocates for the loader, the heap and the trace it leaves. -/
theorem constructor_ok_inv (env : Env) (input : Obj) (w : World) (l : ManagersLoader)
    (w1 : World) (h : ManagersLoader.constructor env input w = (.ok l, w1)) :
    l.managers = w.heap.length ∧ l.injectable = w.heap.length + 5 ∧
    l.config = input.get "config" ∧ l.cache = input.get "cache" ∧
    l.cortex = input.get "cortex" ∧
    w1.console = w.console ∧
    ∃ f1 f2 : Obj,
      w1.heap = w.heap ++
        [[], [("models", env.schemaModels), ("customValidators", env.schemaValidators)],
         f1, [], f2,
         [("utils", env.utils), ("cache", input.get "cache"),
          ("config", input.get "config"), ("cortex", input.get "cortex"),
          ("oyster", input.get "oyster"), ("aeon", input.get "aeon"),
          ("managers", .ref l.managers), ("validators", l.validators),
          ("resourceNodes", l.resourceNodes)]] ∧
      ∃ e1 e2 e3 e4 : Event, w1.trace = w.trace ++ [e1, e2, e3, e4] ∧
        e1.call = .construct .ValidatorsLoader ∧ e2.call = .construct .ResourceMeshLoader ∧
        e3.call = .load .ValidatorsLoader ∧ e4.call = .load .ResourceMeshLoader ∧
        e3.result = .ok l.validators ∧ e4.result = .ok l.resourceNodes ∧
        e1.heap.length ≤ l.injectable ∧ e2.heap.length ≤ l.injectable ∧
        e3.heap.length ≤ l.injectable ∧ e4.heap.length ≤ l.injectable := by
  unfold ManagersLoader.constructor at h
  simp only [] at h
  split at h
  · cases h
  · simp only [ManagersLoader._preload, bind_eq_bindCatch, tryCatch_eq_bindCatch,
      bindCatch_assoc, bindCatch_construct, bindCatch_callLoad, bindCatch_alloc,
      bindCatch_pure, bindCatch_raise, bindCatch_consoleError, pure_run, raise_run] at h
    repeat' split at h
    all_goals simp only [Prod.mk.injEq, reduceCtorEq, false_and] at h
    obtain ⟨hl, hw⟩ := h
    cases hl
    subst hw
    simp only [List.length_append, List.length_singleton, List.length_cons, List.length_nil,
      List.append_assoc, List.singleton_append, List.cons_append, List.nil_append, true_and]
    refine ⟨_, _, rfl, _, _, _, _, rfl, rfl, rfl, rfl, rfl, rfl, rfl, ?_, ?_, ?_, ?_⟩ <;>
      simp only [List.length_append, List.length_cons, List.length_nil] <;> omega

/-- With the three required handles truthy, a construction in which every sub-loader
invocation returns does itself return. -/
theorem constructor_returns (env : Env) (input : Obj) (w : World)
    (hconfig : (input.get "config").truthy = true)
    (hcortex : (input.get "cortex").truthy = true)
    (hcache : (input.get "cache").truthy = true)
    (hpre : ∀ ev ∈ eventsSince w (ManagersLoader.constructor env input w).2,
      ev.returned = true) :
    ∃ l w1, ManagersLoader.constructor env input w = (.ok l, w1) := by
  revert hpre
  unfold ManagersLoader.constructor
  simp only [hconfig, hcortex, hcache, Bool.not_true, Bool.or_self, Bool.false_eq_true,
    if_false]
  simp only [ManagersLoader._preload, bind_eq_bindCatch, tryCatch_eq_bindCatch,
    bindCatch_assoc, bindCatch_construct, bindCatch_callLoad, bindCatch_alloc,
    bindCatch_pure, bindCatch_raise, bindCatch_consoleError, pure_run, raise_run]
  repeat' split
  all_goals
    intro hpre
    simp only [List.append_assoc, eventsSince_append, List.cons_append, List.nil_append,
      List.mem_cons, List.mem_singleton, List.not_mem_nil, or_false, forall_eq_or_imp,
      forall_eq, Event.returned, Bool.false_eq_true, and_false, false_and, and_self] at hpre
  exact ⟨_, _, rfl⟩

/-- The bag assembled by a successful construction. -/
theorem constructor_bag (env : Env) (input : Obj) (w : World) (l : ManagersLoader) (w1 : World)
    (h : ManagersLoader.constructor env input w = (.ok l, w1)) :
    w1.heap.read l.injectable =
      [("utils", env.utils), ("cache", input.get "cache"),
       ("config", input.get "config"), ("cortex", input.get "cortex"),
       ("oyster", input.get "oyster"), ("aeon", input.get "aeon"),
       ("managers", .ref l.managers), ("validators", l.validators),
       ("resourceNodes", l.resourceNodes)] := by
  obtain ⟨-, hb, -, -, -, -, f1, f2, hheap, -⟩ := constructor_ok_inv env input w l w1 h
  rw [hheap, hb, Heap.read_append_right]
  rfl

/-- A freshly constructed loader is well formed, and its managers mapping is empty. -/
theorem constructor_wf (env : Env) (input : Obj) (w : World) (l : ManagersLoader) (w1 : World)
    (h : ManagersLoader.constructor env input w = (.ok l, w1)) :
    WF l w1.heap ∧ w1.heap.read l.managers = [] ∧
      (w1.heap.read l.injectable).has "mwsRepo" = false := by
  obtain ⟨hm, hb, -, -, -, -, f1, f2, hheap, -⟩ := constructor_ok_inv env input w l w1 h
  have hrm : w1.heap.read l.managers = [] := by
    rw [hheap, hm]
    exact Heap.read_append_right w.heap _ 0
  have hrb := constructor_bag env input w l w1 h
  refine ⟨⟨?_, ?_, ?_, ?_⟩, hrm, ?_⟩
  · rw [hheap, hm]; simp
  · rw [hheap, hb]; simp
  · simp [hm, hb]
  · rw [hrb]; simp [Obj.keys]
  · rw [hrb]; simp [Obj.has]

/-- C2, amended: when config, cortex and cache are truthy and no sub-loader invocation of
this construction throws (the constructors and `load()` of the validators and resource-mesh
loaders, on the arguments this construction gives them), construction succeeds and the bag
holds exactly the
supplied handles next to utils: config, cortex, cache, oyster and aeon are the supplied
values (`undefined` for an omitted store), managers is the loader's still-empty managers
mapping, validators and resourceNodes are what the two sub-loaders' `load()` returned, and
there is no mwsRepo entry. -/
theorem constructor_exposes_bag (env : Env) (input : Obj) (w : World)
    (hconfig : (input.get "config").truthy = true)
    (hcortex : (input.get "cortex").truthy = true)
    (hcache : (input.get "cache").truthy = true)
    (hpre : ∀ ev ∈ eventsSince w (ManagersLoader.constructor env input w).2,
      ev.returned = true) :
    ∃ l w1, ManagersLoader.constructor env input w = (.ok l, w1) ∧
      (w1.heap.read l.injectable).keys =
        ["utils", "cache", "config", "cortex", "oyster", "aeon", "managers", "validators",
         "resourceNodes"] ∧
      (w1.heap.read l.injectable).get "utils" = env.utils ∧
      (w1.heap.read l.injectable).get "config" = input.get "config" ∧
      (w1.heap.read l.injectable).get "cortex" = input.get "cortex" ∧
      (w1.heap.read l.injectable).get "cache" = input.get "cache" ∧
      (w1.heap.read l.injectable).get "oyster" = input.get "oyster" ∧
      (w1.heap.read l.injectable).get "aeon" = input.get "aeon" ∧
      (w1.heap.read l.injectable).get "managers" = .ref l.managers ∧
      w1.heap.read l.managers = [] ∧
      (∃ ev ∈ eventsSince w w1, ev.call = .load .ValidatorsLoader ∧
        ev.result = .ok ((w1.heap.read l.injectable).get "validators")) ∧
      (∃ ev ∈ eventsSince w w1, ev.call = .load .ResourceMeshLoader ∧
        ev.result = .ok ((w1.heap.read l.injectable).get "resourceNodes")) ∧
      (w1.heap.read l.injectable).has "mwsRepo" = false := by
  obtain ⟨l, w1, h⟩ := constructor_returns env input w hconfig hcortex hcache hpre
  obtain ⟨hm, hb, -, -, -, -, f1, f2, hheap, e1, e2, e3, e4, htrace, -, -, hc3, hc4, hr3,
    hr4, -⟩ := constructor_ok_inv env input w l w1 h
  have hrb := constructor_bag env input w l w1 h
  have hev : eventsSince w w1 = [e1, e2, e3, e4] := by
    simp [eventsSince, htrace]
  refine ⟨l, w1, h, ?_, ?_, ?_, ?_, ?_, ?_, ?_, ?_, (constructor_wf env input w l w1 h).2.1,
    ⟨e3, ?_, hc3, ?_⟩, ⟨e4, ?_, hc4, ?_⟩, (constructor_wf env input w l w1 h).2.2⟩
  all_goals first
    | (rw [hev]; simp)
    | (rw [hrb]; simp [Obj.keys, Obj.get, hr3, hr4])

/-- C2, amended, at a concrete input: the three handles supplied, both stores omitted, and a
validators loader that would throw on other schema models but returns on these. -/
theorem constructor_exposes_bag_witness :
    (∀ ev ∈ eventsSince emptyWorld
        (ManagersLoader.constructor strictValidatorsEnv plainInput emptyWorld).2,
      ev.returned = true) ∧
    ∃ l w1, ManagersLoader.constructor strictValidatorsEnv plainInput emptyWorld =
        (.ok l, w1) ∧
      (w1.heap.read l.injectable).get "config" = .handle 20 ∧
      (w1.heap.read l.injectable).get "oyster" = .undefined := by
  refine ⟨by decide, ?_⟩
  obtain ⟨l, w1, h, -, -, hc, -, -, ho, -⟩ :=
    constructor_exposes_bag strictValidatorsEnv plainInput emptyWorld (by decide)
      (by decide) (by decide) (by decide)
  exact ⟨l, w1, h, hc, ho⟩

/-- The calls made by any run of the constructor are an initial segment of `constructorCalls`. -/
theorem constructor_calls_initial (env : Env) (input : Obj) (w : World) :
    (eventsSince w (ManagersLoader.constructor env input w).2).map Event.call <+:
      constructorCalls := by
  unfold ManagersLoader.constructor
  simp only []
  split
  · simp [raise, eventsSince_self]
  · simp only [ManagersLoader._preload, bind_eq_bindCatch, tryCatch_eq_bindCatch,
      bindCatch_assoc, bindCatch_construct, bindCatch_callLoad, bindCatch_alloc,
      bindCatch_pure, bindCatch_raise, bindCatch_consoleError, pure_run, raise_run]
    repeat' split
    all_goals simp only [List.append_assoc, eventsSince_append, List.map_append,
      List.map_cons, List.map_nil, List.cons_append, List.nil_append]
    all_goals decide

/-! ## `load()` -/

/-- C8: the HTTP server manager is constructed with an argument holding exactly config and
managers: config is the loader's config, which is the config given to the constructor, and
managers is the loader's managers mapping, which at that moment already contains the seven
other managers. -/
theorem userServer_args (env : Env) (l : ManagersLoader) (w : World) (hwf : WF l w.heap)
    (ev : Event) (hev : ev ∈ eventsSince w (ManagersLoader.load env l w).2)
    (hcall : ev.call = .construct .UserServer) :
    ev.argObj = [("config", l.config), ("managers", .ref l.managers)] ∧
    (∀ k ∈ ["responseDispatcher", "liveDb", "shark", "timeMachine", "token", "mwsExec",
        "userApi"], (ev.heap.read l.managers).has k = true) ∧
    (∀ input w0 w1, ManagersLoader.constructor env input w0 = (.ok l, w1) →
      ev.argObj.get "config" = input.get "config") := by
  obtain ⟨hm, hb, hne, hnd⟩ := hwf
  revert ev
  simp only [ManagersLoader.load, bind_eq_bindCatch, tryCatch_eq_bindCatch,
    bindCatch_assoc, bindCatch_construct, bindCatch_callLoad, bindCatch_setProp,
    bindCatch_alloc, bindCatch_readObj, bindCatch_pure, bindCatch_raise,
    bindCatch_consoleError, pure_run, raise_run]
  repeat' split
  all_goals simp only [List.append_assoc, eventsSince_append, List.cons_append,
    List.nil_append, List.mem_cons, List.mem_singleton, List.not_mem_nil, or_false,
    forall_eq_or_imp, forall_eq, Call.construct.injEq, reduceCtorEq, false_implies,
    true_and, and_true, true_implies, implies_true]
  all_goals
    have hne' := hne.symm
    simp (disch := first
        | ((try simp only [Heap.length_write, List.length_append,
            List.length_singleton, List.length_cons, List.length_nil]); omega)
        | decide)
      only [Event.argObj, Heap.read_append_self, Heap.read_append_lt, Heap.read_write_same,
        Heap.read_write_ne, List.forall_mem_cons, List.forall_mem_singleton,
        Obj.has_set_same, Obj.has_set_ne, Bool.or_true, Bool.true_or, and_self, true_and]
    intro input w0 w1 hc
    rw [(constructor_ok_inv env input w0 l w1 hc).2.2.1]
    simp [Obj.get]

/-- A run of `load()` in which every step returns, described: it returns the loader's
managers mapping, leaves the loader well formed, and binds every manager key to a reference
allocated during the run, the one returned by the constructor of its class. -/
theorem load_ok_spec (env : Env) (l : ManagersLoader) (w : World) (hwf : WF l w.heap)
    (hq : ∀ ev ∈ eventsSince w (ManagersLoader.load env l w).2, ev.returned = true) :
    ∃ w1, ManagersLoader.load env l w = (.ok (.ref l.managers), w1) ∧ WF l w1.heap ∧
      (eventsSince w w1).map Event.call = loadCalls ∧
      (∀ c k, managerKey c = some k →
        ∃ a, w.heap.length ≤ a ∧ a < w1.heap.length ∧
          (w1.heap.read l.managers).get k = .ref a ∧
          (w1.heap.read l.managers).has k = true ∧
          ∃ ev ∈ eventsSince w w1, ev.call = .construct c ∧ ev.result = .ok (.ref a)) ∧
      (managerKeys.map (w1.heap.read l.managers).get).Nodup := by
  obtain ⟨hm, hb, hne, hnd⟩ := hwf
  have hne' := hne.symm
  revert hq
  simp only [ManagersLoader.load, bind_eq_bindCatch, tryCatch_eq_bindCatch,
    bindCatch_assoc, bindCatch_construct, bindCatch_callLoad, bindCatch_setProp,
    bindCatch_alloc, bindCatch_readObj, bindCatch_pure, bindCatch_raise,
    bindCatch_consoleError, pure_run, raise_run]
  repeat' split
  all_goals
    intro hq
    simp only [List.append_assoc, eventsSince_append, List.cons_append, List.nil_append,
      List.mem_cons, List.mem_singleton, List.not_mem_nil, or_false, forall_eq_or_imp,
      forall_eq, Event.returned, Bool.false_eq_true, and_false, false_and, and_self] at hq
  refine ⟨_, rfl, ⟨?_, ?_, hne, ?_⟩, ?_, ?_, ?_⟩
  · simp only [Heap.length_write, List.length_append, List.length_singleton]
    omega
  · simp only [Heap.length_write, List.length_append, List.length_singleton]
    omega
  · simp (disch := first
        | ((try simp only [Heap.length_write, List.length_append,
            List.length_singleton, List.length_cons, List.length_nil]); omega)
        | decide)
      only [Heap.read_append_self, Heap.read_append_lt, Heap.read_write_same,
        Heap.read_write_ne]
    exact Obj.nodup_set _ _ _ hnd
  · simp only [List.append_assoc, eventsSince_append, List.map_append, List.map_cons,
      List.map_nil, List.cons_append, List.nil_append]
    rfl
  · intro c k hk
    cases c <;> simp only [managerKey, reduceCtorEq, Option.some.injEq] at hk <;> subst hk
    all_goals
      simp (disch := first
          | ((try simp only [Heap.length_write, List.length_append,
              List.length_singleton, List.length_cons, List.length_nil]); omega)
          | decide)
        only [Heap.read_append_self, Heap.read_append_lt, Heap.read_write_same,
          Heap.read_write_ne, Obj.get_set_same, Obj.get_set_ne, Obj.has_set_same,
          Obj.has_set_ne, List.append_assoc, eventsSince_append, List.cons_append,
          List.nil_append, List.mem_cons, List.mem_singleton, exists_eq_or_imp,
          exists_eq_left, Call.construct.injEq, reduceCtorEq, false_and, false_or, or_false,
          true_and, Outcome.ok.injEq, Val.ref.injEq, Heap.length_write, List.length_append,
          List.length_singleton, List.length_cons, List.length_nil]
      refine ⟨_, ?_, ?_, rfl, ?_⟩
      all_goals omega
  · simp (disch := first
        | ((try simp only [Heap.length_write, List.length_append,
            List.length_singleton, List.length_cons, List.length_nil]); omega)
        | decide)
      only [managerKeys, List.map_cons, List.map_nil, Heap.read_append_self,
        Heap.read_append_lt, Heap.read_write_same, Heap.read_write_ne, Obj.get_set_same,
        Obj.get_set_ne, Heap.length_write, List.length_append, List.length_singleton,
        List.length_cons, List.length_nil, List.nodup_cons, List.mem_cons,
        List.mem_singleton, List.not_mem_nil, Val.ref.injEq, List.nodup_nil, not_or,
        or_false, not_false_eq_true, and_true]
    omega

theorem managerKeys_spec (k : String) (hk : k ∈ managerKeys) :
    ∃ c, managerKey c = some k := by
  simp only [managerKeys, List.mem_cons, List.mem_singleton, List.not_mem_nil,
    or_false] at hk
  rcases hk with rfl | rfl | rfl | rfl | rfl | rfl | rfl | rfl
  · exact ⟨.ResponseDispatcher, rfl⟩
  · exact ⟨.LiveDB, rfl⟩
  · exact ⟨.SharkFin, rfl⟩
  · exact ⟨.TimeMachine, rfl⟩
  · exact ⟨.TokenManager, rfl⟩
  · exact ⟨.VirtualStack, rfl⟩
  · exact ⟨.ApiHandler, rfl⟩
  · exact ⟨.UserServer, rfl⟩

/-- C3, amended: on a well-formed loader, when no step of this run of `load()` throws
(none of the eight manager constructors, and neither the middleware loader's constructor
nor its `load()`, on the arguments this run gives them), `load()` returns the loader's
managers mapping; the mapping contains all eight documented keys, each bound to the instance
returned by the constructor of its own class, and the eight instances are pairwise
distinct. -/
theorem load_returns_all_managers (env : Env) (l : ManagersLoader) (w : World)
    (hwf : WF l w.heap)
    (hq : ∀ ev ∈ eventsSince w (ManagersLoader.load env l w).2, ev.returned = true) :
    ∃ w1, ManagersLoader.load env l w = (.ok (.ref l.managers), w1) ∧
      (∀ k ∈ managerKeys, (w1.heap.read l.managers).has k = true) ∧
      (∀ c k, managerKey c = some k →
        ∃ ev ∈ eventsSince w w1, ev.call = .construct c ∧
          ev.result = .ok ((w1.heap.read l.managers).get k)) ∧
      (managerKeys.map (w1.heap.read l.managers).get).Nodup := by
  obtain ⟨w1, hrun, -, -, hkeys, hnodup⟩ := load_ok_spec env l w hwf hq
  refine ⟨w1, hrun, ?_, ?_, hnodup⟩
  · intro k hk
    obtain ⟨c, hc⟩ := managerKeys_spec k hk
    obtain ⟨a, -, -, -, hhas, -⟩ := hkeys c k hc
    exact hhas
  · intro c k hc
    obtain ⟨a, -, -, hget, -, ev, hev, hcall, hres⟩ := hkeys c k hc
    exact ⟨ev, hev, hcall, by rw [hget]; exact hres⟩

/-- C4, amended: when no step of either call throws, two successive calls of `load()` both
return, and return the same managers mapping, the one allocated by the constructor; after
the second call each of the eight keys is bound to the instance its constructor returned
during the second call, which is not the instance the key was bound to after the first
call: no entry of the mapping returned by the first call survives the second call. -/
theorem load_twice_same_mapping (env : Env) (l : ManagersLoader) (w : World)
    (hwf : WF l w.heap)
    (hfirst : ∀ ev ∈ eventsSince w (ManagersLoader.load env l w).2, ev.returned = true)
    (hsecond : ∀ ev ∈ eventsSince (ManagersLoader.load env l w).2
        (ManagersLoader.load env l (ManagersLoader.load env l w).2).2,
      ev.returned = true) :
    ∃ w1 w2, ManagersLoader.load env l w = (.ok (.ref l.managers), w1) ∧
      ManagersLoader.load env l w1 = (.ok (.ref l.managers), w2) ∧
      (∀ c k, managerKey c = some k →
        ∃ ev ∈ eventsSince w1 w2, ev.call = .construct c ∧
          ev.result = .ok ((w2.heap.read l.managers).get k)) ∧
      ∀ k ∈ managerKeys,
        (w2.heap.read l.managers).get k ≠ (w1.heap.read l.managers).get k := by
  obtain ⟨w1, hrun1, hwf1, -, hkeys1, -⟩ := load_ok_spec env l w hwf hfirst
  rw [hrun1] at hsecond
  obtain ⟨w2, hrun2, -, -, hkeys2, -⟩ := load_ok_spec env l w1 hwf1 hsecond
  refine ⟨w1, w2, hrun1, hrun2, ?_, ?_⟩
  · intro c k hc
    obtain ⟨a, -, -, hget, -, ev, hev, hcall, hres⟩ := hkeys2 c k hc
    exact ⟨ev, hev, hcall, by rw [hget]; exact hres⟩
  · intro k hk
    obtain ⟨c, hc⟩ := managerKeys_spec k hk
    obtain ⟨a1, -, hlt, hget1, -⟩ := hkeys1 c k hc
    obtain ⟨a2, hle, -, hget2, -⟩ := hkeys2 c k hc
    rw [hget1, hget2]
    intro h
    cases h
    omega

/-- C5: if a step of `load()` throws `e`, then `load()` throws that same `e` (so it returns
no mapping), and the throwing step is the last collaborator invocation of the run: none of
the later construction steps is invoked. -/
theorem load_propagates (env : Env) (l : ManagersLoader) (w : World) (ev : Event) (e : Val)
    (hev : ev ∈ eventsSince w (ManagersLoader.load env l w).2)
    (hthrown : ev.result = .thrown e) :
    (ManagersLoader.load env l w).1 = .thrown e ∧
      (eventsSince w (ManagersLoader.load env l w).2).getLast? = some ev := by
  revert ev
  simp only [ManagersLoader.load, bind_eq_bindCatch, tryCatch_eq_bindCatch,
    bindCatch_assoc, bindCatch_construct, bindCatch_callLoad, bindCatch_setProp,
    bindCatch_alloc, bindCatch_readObj, bindCatch_pure, bindCatch_raise,
    bindCatch_consoleError, pure_run, raise_run]
  repeat' split
  all_goals simp only [List.append_assoc, eventsSince_append, List.cons_append,
    List.nil_append, List.mem_cons, List.mem_singleton, List.not_mem_nil, or_false,
    forall_eq_or_imp, forall_eq, reduceCtorEq, false_implies, Outcome.thrown.injEq,
    true_and, and_true, implies_true, List.getLast?_cons_cons, List.getLast?_singleton]
  all_goals
    intro h
    subst h
    rfl

/-- What each collaborator of `load()` is called with, and the bag at that moment: the
repository is in the bag from the `SharkFin` step on, and the bag is otherwise as it was
when `load()` started. -/
theorem load_event_inv (env : Env) (l : ManagersLoader) (w : World) (hwf : WF l w.heap)
    (ev : Event) (hev : ev ∈ eventsSince w (ManagersLoader.load env l w).2) :
    (ev.call = .construct .LiveDB ∨ ev.call = .construct .MiddlewaresLoader →
      ev.arg = .ref l.injectable ∧
        ev.heap.read l.injectable = w.heap.read l.injectable) ∧
    (ev.call = .construct .SharkFin ∨ ev.call = .construct .TimeMachine ∨
        ev.call = .construct .TokenManager ∨ ev.call = .construct .VirtualStack ∨
        ev.call = .construct .ApiHandler ∨ ev.call = .construct .UserServer →
      ∃ repo,
        (∃ lev ∈ eventsSince w (ManagersLoader.load env l w).2,
          lev.call = .load .MiddlewaresLoader ∧ lev.result = .ok repo) ∧
        ev.heap.read l.injectable = Obj.set (w.heap.read l.injectable) "mwsRepo" repo) ∧
    (ev.call = .construct .SharkFin →
      ev.argObj =
        Obj.set (Obj.set (Obj.spread [] (ev.heap.read l.injectable)) "layers"
          (env.systemArch.get "layers")) "actions" (env.systemArch.get "actions")) ∧
    (ev.call = .construct .TimeMachine ∨ ev.call = .construct .TokenManager →
      ev.arg = .ref l.injectable) ∧
    (ev.call = .construct .VirtualStack →
      ev.argObj =
        Obj.spread (Obj.spread [] [("preStack", .strArr ["__device"])])
          (ev.heap.read l.injectable)) ∧
    (ev.call = .construct .ApiHandler →
      ev.argObj =
        Obj.spread (Obj.spread [] (ev.heap.read l.injectable))
          [("prop", .str "httpExposed")]) := by
  obtain ⟨hm, hb, hne, hnd⟩ := hwf
  have hne' := hne.symm
  revert ev
  simp only [ManagersLoader.load, bind_eq_bindCatch, tryCatch_eq_bindCatch,
    bindCatch_assoc, bindCatch_construct, bindCatch_callLoad, bindCatch_setProp,
    bindCatch_alloc, bindCatch_readObj, bindCatch_pure, bindCatch_raise,
    bindCatch_consoleError, pure_run, raise_run]
  repeat' split
  all_goals
    simp (disch := first
        | ((try simp only [Heap.length_write, List.length_append,
            List.length_singleton, List.length_cons, List.length_nil]); omega)
        | decide)
      only [List.append_assoc, eventsSince_append, List.cons_append,
        List.nil_append, List.mem_cons, List.mem_singleton, List.not_mem_nil, or_false,
        forall_eq_or_imp, forall_eq, exists_eq_or_imp, exists_eq_left,
        Call.construct.injEq, Call.load.injEq, reduceCtorEq, false_implies,
        or_self, false_or, or_true, true_or, false_and, and_false,
        true_and, and_true, true_implies, implies_true, Outcome.ok.injEq,
        Event.argObj, Heap.read_append_self, Heap.read_append_lt, Heap.read_write_same,
        Heap.read_write_ne, exists_eq_left', exists_eq', exists_eq, and_self]

theorem Obj.spread_nil_singleton (k : String) (v : Val) :
    Obj.spread [] [(k, v)] = [(k, v)] := rfl

theorem Obj.spread_singleton (o : Obj) (k : String) (v : Val) :
    Obj.spread o [(k, v)] = Obj.set o k v := rfl

theorem Obj.has_nil (k : String) : Obj.has [] k = false := rfl

theorem Obj.get_nil (k : String) : Obj.get [] k = .undefined := rfl

/-- Any run of `load()`, returned or thrown, leaves the loader well formed. -/
theorem load_wf (env : Env) (l : ManagersLoader) (w : World) (hwf : WF l w.heap) :
    WF l (ManagersLoader.load env l w).2.heap := by
  obtain ⟨hm, hb, hne, hnd⟩ := hwf
  have hne' := hne.symm
  simp only [ManagersLoader.load, bind_eq_bindCatch, tryCatch_eq_bindCatch,
    bindCatch_assoc, bindCatch_construct, bindCatch_callLoad, bindCatch_setProp,
    bindCatch_alloc, bindCatch_readObj, bindCatch_pure, bindCatch_raise,
    bindCatch_consoleError, pure_run, raise_run]
  repeat' split
  all_goals
    refine ⟨?_, ?_, hne, ?_⟩
    · simp only [Heap.length_write, List.length_append, List.length_singleton]
      omega
    · simp only [Heap.length_write, List.length_append, List.length_singleton]
      omega
    · try simp (disch := first
          | ((try simp only [Heap.length_write, List.length_append,
              List.length_singleton, List.length_cons, List.length_nil]); omega)
          | decide)
        only [Heap.read_append_self, Heap.read_append_lt, Heap.read_write_same,
          Heap.read_write_ne]
      first | exact hnd | exact Obj.nodup_set _ _ _ hnd

/-- Once the middleware loader's `load()` has returned a repository in a run of `load()`,
the bag the run leaves behind is the bag it started from with mwsRepo set to that
repository, however the run ends. -/
theorem load_bag_after (env : Env) (l : ManagersLoader) (w : World) (hwf : WF l w.heap)
    (lev : Event) (hlev : lev ∈ eventsSince w (ManagersLoader.load env l w).2) (repo : Val)
    (hcall : lev.call = .load .MiddlewaresLoader) (hres : lev.result = .ok repo) :
    (ManagersLoader.load env l w).2.heap.read l.injectable =
      Obj.set (w.heap.read l.injectable) "mwsRepo" repo := by
  obtain ⟨hm, hb, hne, hnd⟩ := hwf
  have hne' := hne.symm
  revert lev
  simp only [ManagersLoader.load, bind_eq_bindCatch, tryCatch_eq_bindCatch,
    bindCatch_assoc, bindCatch_construct, bindCatch_callLoad, bindCatch_setProp,
    bindCatch_alloc, bindCatch_readObj, bindCatch_pure, bindCatch_raise,
    bindCatch_consoleError, pure_run, raise_run]
  repeat' split
  all_goals
    simp (disch := first
        | ((try simp only [Heap.length_write, List.length_append,
            List.length_singleton, List.length_cons, List.length_nil]); omega)
        | decide)
      only [List.append_assoc, eventsSince_append, List.cons_append,
        List.nil_append, List.mem_cons, List.mem_singleton, List.not_mem_nil, or_false,
        forall_eq_or_imp, forall_eq, Call.load.injEq, reduceCtorEq, false_implies,
        true_and, and_true, true_implies, implies_true, Outcome.ok.injEq,
        Heap.read_append_self, Heap.read_append_lt, Heap.read_write_same,
        Heap.read_write_ne, and_self]
  all_goals
    intro h
    rw [h]

/-- C6, amended: in every run of `load()`, the repository returned by the middleware
loader's `load()` is present, as mwsRepo, in the constructor arguments seen by SharkFin,
TimeMachine, TokenManager, VirtualStack and ApiHandler.  The bag passed to the live-database
manager and to the middleware loader is the bag as it was when `load()` was called: it has
no mwsRepo entry when the run starts without one (as on the first call after construction),
and in the run that follows a run whose middleware loader returned a repository it already
carries that repository as mwsRepo. -/
theorem mwsRepo_visibility (env : Env) (l : ManagersLoader) (w : World) (hwf : WF l w.heap)
    (ev : Event) (hev : ev ∈ eventsSince w (ManagersLoader.load env l w).2) :
    (ev.call = .construct .SharkFin ∨ ev.call = .construct .TimeMachine ∨
        ev.call = .construct .TokenManager ∨ ev.call = .construct .VirtualStack ∨
        ev.call = .construct .ApiHandler →
      ∃ repo,
        (∃ lev ∈ eventsSince w (ManagersLoader.load env l w).2,
          lev.call = .load .MiddlewaresLoader ∧ lev.result = .ok repo) ∧
        ev.argObj.has "mwsRepo" = true ∧ ev.argObj.get "mwsRepo" = repo) ∧
    ((w.heap.read l.injectable).has "mwsRepo" = false →
      ev.call = .construct .LiveDB ∨ ev.call = .construct .MiddlewaresLoader →
        ev.argObj = ev.heap.read l.injectable ∧
          (ev.heap.read l.injectable).has "mwsRepo" = false) ∧
    (ev.call = .construct .LiveDB ∨ ev.call = .construct .MiddlewaresLoader →
      ev.argObj = ev.heap.read l.injectable ∧
        ev.heap.read l.injectable = w.heap.read l.injectable) ∧
    (∀ lev ∈ eventsSince w (ManagersLoader.load env l w).2, ∀ repo,
      lev.call = .load .MiddlewaresLoader → lev.result = .ok repo →
      ∀ later ∈ eventsSince (ManagersLoader.load env l w).2
          (ManagersLoader.load env l (ManagersLoader.load env l w).2).2,
        later.call = .construct .LiveDB ∨ later.call = .construct .MiddlewaresLoader →
          (later.heap.read l.injectable).has "mwsRepo" = true ∧
            (later.heap.read l.injectable).get "mwsRepo" = repo) := by
  obtain ⟨hpre, hpost, hshark, hbagarg, hstack, hapi⟩ := load_event_inv env l w hwf ev hev
  have hnd := hwf.2.2.2
  refine ⟨?_, ?_, ?_, ?_⟩
  · intro hcall
    obtain ⟨repo, hlev, hbag⟩ := hpost (by
      rcases hcall with h | h | h | h | h <;> simp [h])
    have hndbag : (ev.heap.read l.injectable).keys.Nodup := by
      rw [hbag]; exact Obj.nodup_set _ _ _ hnd
    have hhas : (ev.heap.read l.injectable).has "mwsRepo" = true := by
      rw [hbag]; exact Obj.has_set_same _ _ _
    have hget : (ev.heap.read l.injectable).get "mwsRepo" = repo := by
      rw [hbag]; exact Obj.get_set_same _ _ _
    refine ⟨repo, hlev, ?_⟩
    rcases hcall with h | h | h | h | h
    · rw [hshark h]
      rw [Obj.has_set_ne _ _ _ _ (by decide), Obj.has_set_ne _ _ _ _ (by decide),
        Obj.get_set_ne _ _ _ _ (by decide), Obj.get_set_ne _ _ _ _ (by decide),
        Obj.has_spread, Obj.get_spread _ _ _ hndbag, hhas, hget]
      simp
    · have harg := hbagarg (Or.inl h)
      simp only [Event.argObj, harg]
      exact ⟨hhas, hget⟩
    · have harg := hbagarg (Or.inr h)
      simp only [Event.argObj, harg]
      exact ⟨hhas, hget⟩
    · rw [hstack h, Obj.has_spread, Obj.get_spread _ _ _ hndbag, hhas, hget]
      simp
    · rw [hapi h, Obj.spread_singleton, Obj.has_set_ne _ _ _ _ (by decide),
        Obj.get_set_ne _ _ _ _ (by decide), Obj.has_spread,
        Obj.get_spread _ _ _ hndbag, hhas, hget]
      simp
  · intro hno hcall
    obtain ⟨harg, hbag⟩ := hpre hcall
    refine ⟨?_, ?_⟩
    · simp only [Event.argObj, harg]
    · rw [hbag]; exact hno
  · intro hcall
    obtain ⟨harg, hbag⟩ := hpre hcall
    exact ⟨by simp only [Event.argObj, harg], hbag⟩
  · intro lev hlev repo hlcall hlres ev2 hev2 hcall2
    have hwf1 := load_wf env l w hwf
    have hbag1 := load_bag_after env l w hwf lev hlev repo hlcall hlres
    obtain ⟨hpre2, -⟩ := load_event_inv env l _ hwf1 ev2 hev2
    obtain ⟨-, hbag2⟩ := hpre2 hcall2
    rw [hbag2, hbag1]
    exact ⟨Obj.has_set_same _ _ _, Obj.get_set_same _ _ _⟩

/-- C10, amended: VirtualStack is constructed with every entry of the bag, plus
preStack = ['__device'] only when the bag has no preStack entry of its own (the bag's entry
wins); ApiHandler is constructed with prop = 'httpExposed' and every entry of the bag other
than prop (a prop entry of the bag is overridden). -/
theorem stack_and_api_args (env : Env) (l : ManagersLoader) (w : World) (hwf : WF l w.heap)
    (ev : Event) (hev : ev ∈ eventsSince w (ManagersLoader.load env l w).2) :
    (ev.call = .construct .VirtualStack →
      (∀ k, ev.argObj.has k = true ↔
        k = "preStack" ∨ (ev.heap.read l.injectable).has k = true) ∧
      (∀ k, (ev.heap.read l.injectable).has k = true →
        ev.argObj.get k = (ev.heap.read l.injectable).get k) ∧
      ((ev.heap.read l.injectable).has "preStack" = false →
        ev.argObj.get "preStack" = .strArr ["__device"])) ∧
    (ev.call = .construct .ApiHandler →
      (∀ k, ev.argObj.has k = true ↔
        k = "prop" ∨ (ev.heap.read l.injectable).has k = true) ∧
      ev.argObj.get "prop" = .str "httpExposed" ∧
      (∀ k, k ≠ "prop" → ev.argObj.get k = (ev.heap.read l.injectable).get k)) := by
  obtain ⟨-, hpost, -, -, hstack, hapi⟩ := load_event_inv env l w hwf ev hev
  have hnd := hwf.2.2.2
  refine ⟨?_, ?_⟩
  · intro h
    obtain ⟨repo, -, hbag⟩ := hpost (by simp [h])
    have hndbag : (ev.heap.read l.injectable).keys.Nodup := by
      rw [hbag]; exact Obj.nodup_set _ _ _ hnd
    rw [hstack h, Obj.spread_nil_singleton]
    refine ⟨?_, ?_, ?_⟩
    · intro k
      rw [Obj.has_spread]
      by_cases hk : k = "preStack"
      · subst hk; simp [Obj.has]
      · have hk' : ¬ "preStack" = k := fun h => hk h.symm
        simp [Obj.has, hk, hk']
    · intro k hk
      rw [Obj.get_spread _ _ _ hndbag, hk]
      rfl
    · intro hno
      rw [Obj.get_spread _ _ _ hndbag, hno]
      rfl
  · intro h
    obtain ⟨repo, -, hbag⟩ := hpost (by simp [h])
    have hndbag : (ev.heap.read l.injectable).keys.Nodup := by
      rw [hbag]; exact Obj.nodup_set _ _ _ hnd
    rw [hapi h, Obj.spread_singleton]
    refine ⟨?_, Obj.get_set_same _ _ _, ?_⟩
    · intro k
      by_cases hk : k = "prop"
      · subst hk; simp [Obj.has_set_same]
      · rw [Obj.has_set_ne _ _ _ _ hk, Obj.has_spread]
        simp [Obj.has, hk]
    · intro k hk
      rw [Obj.get_set_ne _ _ _ _ hk, Obj.get_spread _ _ _ hndbag]
      cases hh : Obj.has (ev.heap.read l.injectable) k with
      | true => rfl
      | false =>
        rw [Obj.get_of_not_has _ _ hh]
        rfl

/-- A key that no completed step assigns keeps the binding it had. -/
theorem assigned_untouched (m : Obj) (evs : List Event) (k : String)
    (h : ∀ ev ∈ evs, ∀ c v, ev.call = .construct c → ev.result = .ok v →
      managerKey c ≠ some k) :
    (assigned m evs).get k = m.get k ∧ (assigned m evs).has k = m.has k := by
  induction evs generalizing m with
  | nil => exact ⟨rfl, rfl⟩
  | cons ev rest ih =>
    have hrest := ih (assignStep m ev) (fun ev' hev' => h ev' (List.mem_cons_of_mem _ hev'))
    have hstep : (assignStep m ev).get k = m.get k ∧ (assignStep m ev).has k = m.has k := by
      have hev := h ev (List.mem_cons_self _ _)
      unfold assignStep
      split
      · rename_i c v hcall hres
        have hne := hev c v hcall hres
        split
        · rename_i k' hk'
          have hkk : k ≠ k' := by
            intro heq
            subst heq
            exact hne hk'
          exact ⟨Obj.get_set_ne _ _ _ _ hkk, Obj.has_set_ne _ _ _ _ hkk⟩
        · exact ⟨rfl, rfl⟩
      · exact ⟨rfl, rfl⟩
    simp only [assigned, List.foldl_cons] at hrest ⊢
    exact ⟨hrest.1.trans hstep.1, hrest.2.trans hstep.2⟩

/-- After any run of `load()`, returned or thrown, the managers mapping is the mapping the
run started from with the assignments of the completed steps applied, and the bag's managers
entry is untouched. -/
theorem load_mapping_assigned (env : Env) (l : ManagersLoader) (w : World)
    (hwf : WF l w.heap) :
    (ManagersLoader.load env l w).2.heap.read l.managers =
        assigned (w.heap.read l.managers)
          (eventsSince w (ManagersLoader.load env l w).2) ∧
      ((ManagersLoader.load env l w).2.heap.read l.injectable).get "managers" =
        (w.heap.read l.injectable).get "managers" := by
  obtain ⟨hm, hb, hne, hnd⟩ := hwf
  have hne' := hne.symm
  simp only [ManagersLoader.load, bind_eq_bindCatch, tryCatch_eq_bindCatch,
    bindCatch_assoc, bindCatch_construct, bindCatch_callLoad, bindCatch_setProp,
    bindCatch_alloc, bindCatch_readObj, bindCatch_pure, bindCatch_raise,
    bindCatch_consoleError, pure_run, raise_run]
  repeat' split
  all_goals
    simp (disch := first
        | ((try simp only [Heap.length_write, List.length_append,
            List.length_singleton, List.length_cons, List.length_nil]); omega)
        | decide)
      only [List.append_assoc, eventsSince_append, List.cons_append, List.nil_append,
        assigned, List.foldl_cons, List.foldl_nil, assignStep, managerKey,
        Heap.read_append_self, Heap.read_append_lt, Heap.read_write_same,
        Heap.read_write_ne, Obj.get_set_ne, and_self]

/-- The calls made by any run of `load()` are an initial segment of `loadCalls`, and all of
`loadCalls` when the run returns. -/
theorem load_calls_initial (env : Env) (l : ManagersLoader) (w : World) :
    (eventsSince w (ManagersLoader.load env l w).2).map Event.call <+: loadCalls ∧
      ∀ v, (ManagersLoader.load env l w).1 = .ok v →
        (eventsSince w (ManagersLoader.load env l w).2).map Event.call = loadCalls := by
  simp only [ManagersLoader.load, bind_eq_bindCatch, tryCatch_eq_bindCatch,
    bindCatch_assoc, bindCatch_construct, bindCatch_callLoad, bindCatch_setProp,
    bindCatch_alloc, bindCatch_readObj, bindCatch_pure, bindCatch_raise,
    bindCatch_consoleError, pure_run, raise_run]
  repeat' split
  all_goals simp only [List.append_assoc, eventsSince_append, List.map_append,
    List.map_cons, List.map_nil, List.cons_append, List.nil_append, reduceCtorEq,
    false_implies, implies_true, and_true]
  all_goals first | decide | exact ⟨by decide, fun _ _ => rfl⟩

/-- C7: collaborators are invoked in one fixed order.  Any run of the constructor invokes an
initial segment of: new ValidatorsLoader, new ResourceMeshLoader, validators `load()`,
resource-mesh `load()`; when it returns it has invoked all four, each before the bag was
allocated.  Any run of `load()` invokes an initial segment of: ResponseDispatcher, LiveDB,
new MiddlewaresLoader, its `load()`, SharkFin, TimeMachine, TokenManager, VirtualStack,
ApiHandler, UserServer; when it returns it has invoked all ten, UserServer last. -/
theorem construction_order (env : Env) :
    (∀ input w,
      (eventsSince w (ManagersLoader.constructor env input w).2).map Event.call <+:
        constructorCalls ∧
      ∀ l w1, ManagersLoader.constructor env input w = (.ok l, w1) →
        (eventsSince w w1).map Event.call = constructorCalls ∧
          ∀ ev ∈ eventsSince w w1, ev.heap.length ≤ l.injectable) ∧
    (∀ l w,
      (eventsSince w (ManagersLoader.load env l w).2).map Event.call <+: loadCalls ∧
      ∀ v, (ManagersLoader.load env l w).1 = .ok v →
        (eventsSince w (ManagersLoader.load env l w).2).map Event.call = loadCalls) := by
  refine ⟨fun input w => ⟨constructor_calls_initial env input w, ?_⟩,
    fun l w => load_calls_initial env l w⟩
  intro l w1 h
  obtain ⟨-, -, -, -, -, -, f1, f2, -, e1, e2, e3, e4, htrace, hc1, hc2, hc3, hc4, -, -,
    hh1, hh2, hh3, hh4⟩ := constructor_ok_inv env input w l w1 h
  have hev : eventsSince w w1 = [e1, e2, e3, e4] := by
    simp [eventsSince, htrace]
  rw [hev]
  refine ⟨by simp [hc1, hc2, hc3, hc4, constructorCalls], ?_⟩
  intro ev hmem
  simp only [List.mem_cons, List.mem_singleton, List.not_mem_nil, or_false] at hmem
  rcases hmem with rfl | rfl | rfl | rfl <;> assumption

/-! ## The concrete runs -/

theorem created_run :
    ManagersLoader.constructor quietEnv plainInput emptyWorld =
      (.ok createdLoader, createdWorld) := by
  decide

theorem created_wf : WF createdLoader createdWorld.heap :=
  (constructor_wf quietEnv plainInput emptyWorld createdLoader createdWorld created_run).1

theorem customised_wf : WF createdLoader customisedWorld.heap :=
  ⟨by decide, by decide, by decide, by decide⟩

/-- C3, amended, at a concrete run: the first `load()` after construction, with a token
manager that would throw on a later call but returns on this one. -/
theorem load_returns_all_managers_witness :
    WF createdLoader createdWorld.heap ∧
      (∀ ev ∈ eventsSince createdWorld
          (ManagersLoader.load guardedTokenEnv createdLoader createdWorld).2,
        ev.returned = true) ∧
      ∃ w1, ManagersLoader.load guardedTokenEnv createdLoader createdWorld =
          (.ok (.ref createdLoader.managers), w1) ∧
        (managerKeys.map (w1.heap.read createdLoader.managers).get).Nodup := by
  refine ⟨created_wf, by decide, ?_⟩
  obtain ⟨w1, h, -, -, hn⟩ :=
    load_returns_all_managers guardedTokenEnv createdLoader createdWorld created_wf
      (by decide)
  exact ⟨w1, h, hn⟩

/-- C3 as stated fails: with collaborators none of whose constructors ever throws, `load()`
on a successfully constructed loader still returns no mapping when the middleware loader's
`load()` throws. -/
theorem load_middlewares_counterexample :
    (∀ c arg h e, failingMiddlewaresEnv.construct c arg h ≠ .thrown e) ∧
      ManagersLoader.constructor failingMiddlewaresEnv plainInput emptyWorld =
        (.ok createdLoader, createdWorld) ∧
      (ManagersLoader.load failingMiddlewaresEnv createdLoader createdWorld).1 =
        .thrown (.error "middlewares unavailable") :=
  ⟨fun c arg h e => by simp [failingMiddlewaresEnv, quietEnv], by decide, by decide⟩

/-- C4, amended, at a concrete loader: two calls of `load()` after construction. -/
theorem load_twice_same_mapping_witness :
    WF createdLoader createdWorld.heap ∧
      ∃ w1 w2, ManagersLoader.load quietEnv createdLoader createdWorld =
          (.ok (.ref createdLoader.managers), w1) ∧
        ManagersLoader.load quietEnv createdLoader w1 =
          (.ok (.ref createdLoader.managers), w2) ∧
        (w2.heap.read createdLoader.managers).get "userServer" ≠
          (w1.heap.read createdLoader.managers).get "userServer" := by
  refine ⟨created_wf, ?_⟩
  obtain ⟨w1, w2, h1, h2, -, hk⟩ :=
    load_twice_same_mapping quietEnv createdLoader createdWorld created_wf (by decide)
      (by decide)
  exact ⟨w1, w2, h1, h2, hk "userServer" (by decide)⟩

/-- C4 as stated fails: on the loader constructed from `plainInput`, both calls of `load()`
return the same mapping (the object at address 0), and the second call changes the entries
of the mapping the first call returned. -/
theorem load_twice_counterexample :
    ManagersLoader.constructor quietEnv plainInput emptyWorld =
        (.ok createdLoader, createdWorld) ∧
      ManagersLoader.load quietEnv createdLoader createdWorld =
        (.ok (.ref 0), loadedWorld) ∧
      ManagersLoader.load quietEnv createdLoader loadedWorld =
        (.ok (.ref 0), reloadedWorld) ∧
      (loadedWorld.heap.read 0).get "responseDispatcher" = .ref 6 ∧
      (reloadedWorld.heap.read 0).get "responseDispatcher" = .ref 19 := by
  decide

/-- C5 at a concrete run: the middleware loader throws at the fourth step. -/
theorem load_propagates_witness :
    eventAt createdWorld failedWorld 3 ∈ eventsSince createdWorld failedWorld ∧
      (eventAt createdWorld failedWorld 3).call = .load .MiddlewaresLoader ∧
      (ManagersLoader.load failingMiddlewaresEnv createdLoader createdWorld).1 =
        .thrown (.error "middlewares unavailable") ∧
      (eventsSince createdWorld failedWorld).getLast? =
        some (eventAt createdWorld failedWorld 3) :=
  ⟨by decide, by decide,
    load_propagates failingMiddlewaresEnv createdLoader createdWorld
      (eventAt createdWorld failedWorld 3) (.error "middlewares unavailable")
      (by decide) (by decide)⟩

/-- C6, amended, at concrete runs: the VirtualStack and LiveDB steps of the first `load()`,
and the LiveDB step of the second. -/
theorem mwsRepo_visibility_witness :
    (∃ repo,
      (∃ lev ∈ eventsSince createdWorld loadedWorld,
        lev.call = .load .MiddlewaresLoader ∧ lev.result = .ok repo) ∧
      (eventAt createdWorld loadedWorld 7).argObj.has "mwsRepo" = true ∧
      (eventAt createdWorld loadedWorld 7).argObj.get "mwsRepo" = repo) ∧
    ((eventAt createdWorld loadedWorld 1).heap.read createdLoader.injectable).has
      "mwsRepo" = false ∧
    ((eventAt loadedWorld reloadedWorld 1).heap.read createdLoader.injectable).get
      "mwsRepo" = .handle 12 :=
  ⟨(mwsRepo_visibility quietEnv createdLoader createdWorld created_wf
      (eventAt createdWorld loadedWorld 7) (by decide)).1
      (Or.inr (Or.inr (Or.inr (Or.inl (by decide))))),
    ((mwsRepo_visibility quietEnv createdLoader createdWorld created_wf
      (eventAt createdWorld loadedWorld 1) (by decide)).2.1 (by decide)
      (Or.inl (by decide))).2,
    ((mwsRepo_visibility quietEnv createdLoader createdWorld created_wf
      (eventAt createdWorld loadedWorld 1) (by decide)).2.2.2
      (eventAt createdWorld loadedWorld 3) (by decide) (.handle 12) (by decide) (by decide)
      (eventAt loadedWorld reloadedWorld 1) (by decide) (Or.inl (by decide))).2⟩

/-- C6 as stated fails: in a second run of `load()` the bag already holds the repository
when the live-database manager is constructed (the very value this run's middleware loader
returns); and the HTTP server manager, constructed after the insertion, is given no
mwsRepo. -/
theorem mwsRepo_counterexample :
    ManagersLoader.constructor quietEnv plainInput emptyWorld =
        (.ok createdLoader, createdWorld) ∧
      ManagersLoader.load quietEnv createdLoader createdWorld =
        (.ok (.ref 0), loadedWorld) ∧
      ManagersLoader.load quietEnv createdLoader loadedWorld =
        (.ok (.ref 0), reloadedWorld) ∧
      (eventAt loadedWorld reloadedWorld 1).call = .construct .LiveDB ∧
      ((eventAt loadedWorld reloadedWorld 1).heap.read createdLoader.injectable).get
        "mwsRepo" = .handle 12 ∧
      (eventAt loadedWorld reloadedWorld 3).call = .load .MiddlewaresLoader ∧
      (eventAt loadedWorld reloadedWorld 3).result = .ok (.handle 12) ∧
      (eventAt createdWorld loadedWorld 9).call = .construct .UserServer ∧
      (eventAt createdWorld loadedWorld 9).argObj.has "mwsRepo" = false := by
  decide

/-- C8 at a concrete run: the UserServer step of the first `load()`. -/
theorem userServer_args_witness :
    (eventAt createdWorld loadedWorld 9).call = .construct .UserServer ∧
      (eventAt createdWorld loadedWorld 9).argObj =
        [("config", createdLoader.config), ("managers", .ref createdLoader.managers)] :=
  ⟨by decide,
    (userServer_args quietEnv createdLoader createdWorld created_wf
      (eventAt createdWorld loadedWorld 9) (by decide) (by decide)).1⟩

/-- C9, amended: `load()` performs no rollback.  After a `load()` that threw, the managers
mapping is the mapping the call started from with exactly the assignments of the steps
completed before the throwing one applied (and the bag's managers entry is untouched): a
key assigned by no completed step keeps whatever binding it had before the call, so a later
key is absent only if it was absent before.  And there is a failed `load()` after which the
mapping differs from the mapping before the call. -/
theorem load_no_rollback :
    (∀ (env : Env) (l : ManagersLoader) (w : World) (e : Val), WF l w.heap →
      (ManagersLoader.load env l w).1 = .thrown e →
        (ManagersLoader.load env l w).2.heap.read l.managers =
          assigned (w.heap.read l.managers)
            (eventsSince w (ManagersLoader.load env l w).2) ∧
        ((ManagersLoader.load env l w).2.heap.read l.injectable).get "managers" =
          (w.heap.read l.injectable).get "managers" ∧
        ∀ k,
          (∀ ev ∈ eventsSince w (ManagersLoader.load env l w).2, ∀ c v,
            ev.call = .construct c → ev.result = .ok v → managerKey c ≠ some k) →
          ((ManagersLoader.load env l w).2.heap.read l.managers).get k =
              (w.heap.read l.managers).get k ∧
            ((ManagersLoader.load env l w).2.heap.read l.managers).has k =
              (w.heap.read l.managers).has k) ∧
    (∃ (env : Env) (l : ManagersLoader) (w : World) (e : Val), WF l w.heap ∧
      (ManagersLoader.load env l w).1 = .thrown e ∧
      (ManagersLoader.load env l w).2.heap.read l.managers ≠ w.heap.read l.managers) := by
  refine ⟨?_, ⟨failingMiddlewaresEnv, createdLoader, createdWorld,
    .error "middlewares unavailable", created_wf, by decide, by decide⟩⟩
  intro env l w e hwf _
  obtain ⟨hmap, hbag⟩ := load_mapping_assigned env l w hwf
  refine ⟨hmap, hbag, ?_⟩
  intro k hk
  rw [hmap]
  exact assigned_untouched _ _ k hk

/-- C9, amended, at a concrete run: the middleware loader throws after two managers were
assigned. -/
theorem load_no_rollback_witness :
    WF createdLoader createdWorld.heap ∧
      (ManagersLoader.load failingMiddlewaresEnv createdLoader createdWorld).1 =
        .thrown (.error "middlewares unavailable") ∧
      failedWorld.heap.read createdLoader.managers =
        assigned (createdWorld.heap.read createdLoader.managers)
          (eventsSince createdWorld failedWorld) ∧
      failedWorld.heap.read createdLoader.managers =
        [("responseDispatcher", .ref 6), ("liveDb", .ref 7)] :=
  ⟨created_wf, by decide,
    (load_no_rollback.1 failingMiddlewaresEnv createdLoader createdWorld
      (.error "middlewares unavailable") created_wf (by decide)).1,
    by decide⟩

/-- C9 as stated fails: after a `load()` that returned, a second `load()` in which the
seventh step (the token manager) throws leaves the mapping with the later keys mwsExec,
userApi and userServer still present, and with token still bound to the instance of
the first call. -/
theorem load_no_rollback_counterexample :
    ManagersLoader.constructor guardedTokenEnv plainInput emptyWorld =
        (.ok createdLoader, createdWorld) ∧
      ManagersLoader.load guardedTokenEnv createdLoader createdWorld =
        (.ok (.ref 0), loadedWorld) ∧
      (ManagersLoader.load guardedTokenEnv createdLoader loadedWorld).1 =
        .thrown (.error "token manager already set") ∧
      (eventsSince loadedWorld refusedWorld).map Event.call = loadCalls.take 7 ∧
      (refusedWorld.heap.read createdLoader.managers).has "mwsExec" = true ∧
      (refusedWorld.heap.read createdLoader.managers).has "userApi" = true ∧
      (refusedWorld.heap.read createdLoader.managers).has "userServer" = true ∧
      (refusedWorld.heap.read createdLoader.managers).get "token" =
        (loadedWorld.heap.read createdLoader.managers).get "token" := by
  decide

/-- C10, amended, at a concrete run: the ApiHandler step on a bag with its own prop and
preStack entries. -/
theorem stack_and_api_args_witness :
    WF createdLoader customisedWorld.heap ∧
      (eventAt customisedWorld customLoadedWorld 8).call = .construct .ApiHandler ∧
      (eventAt customisedWorld customLoadedWorld 8).argObj.get "prop" =
        .str "httpExposed" ∧
      (eventAt customisedWorld customLoadedWorld 8).argObj.get "preStack" =
        ((eventAt customisedWorld customLoadedWorld 8).heap.read
          createdLoader.injectable).get "preStack" := by
  have h := (stack_and_api_args quietEnv createdLoader customisedWorld customised_wf
    (eventAt customisedWorld customLoadedWorld 8) (by decide)).2 (by decide)
  exact ⟨customised_wf, by decide, h.2.1, h.2.2 "preStack" (by decide)⟩

/-- C10 as stated fails on a bag that carries its own preStack and prop entries:
VirtualStack is then constructed with the bag's preStack, not with ['__device'], and
ApiHandler is constructed with prop = 'httpExposed', not with the bag's prop entry. -/
theorem stack_and_api_args_counterexample :
    (customisedWorld.heap.read createdLoader.injectable).get "preStack" =
        .strArr ["__session"] ∧
      (customisedWorld.heap.read createdLoader.injectable).get "prop" =
        .str "cliExposed" ∧
      (eventAt customisedWorld customLoadedWorld 7).call = .construct .VirtualStack ∧
      (eventAt customisedWorld customLoadedWorld 7).argObj.get "preStack" =
        .strArr ["__session"] ∧
      (eventAt customisedWorld customLoadedWorld 8).call = .construct .ApiHandler ∧
      ((eventAt customisedWorld customLoadedWorld 8).heap.read
        createdLoader.injectable).get "prop" = .str "cliExposed" ∧
      (eventAt customisedWorld customLoadedWorld 8).argObj.get "prop" =
        .str "httpExposed" := by
  decide

/-- C7 at a concrete run: the first `load()` after construction invokes all ten
collaborators in source order. -/
theorem construction_order_witness :
    (eventsSince createdWorld (ManagersLoader.load quietEnv createdLoader createdWorld).2).map
      Event.call = loadCalls :=
  ((construction_order quietEnv).2 createdLoader createdWorld).2 (.ref 0) (by decide)

end Axion
